import Mathlib

/-!
Verification development for the Shenandoah heap-region sampler
(shenandoahHeapRegionCounters.cpp): the status-word encoder, the
per-region bitfield codec, the sampling-gate logic of update(), and the
ordering of counter-sink and log-sink effects.

Machine integers: every value packed into words here is nonnegative and
well below 2^63, so jlong and size_t arithmetic is embedded over Nat
(for bit-packed words) and Int (for millisecond timestamps).
-/

/-- Generation mode of the active generation (GLOBAL, OLD, YOUNG). -/
inductive GenerationMode where
  | GLOBAL : GenerationMode
  | OLD : GenerationMode
  | YOUNG : GenerationMode
deriving DecidableEq

/-- Read-only per-region view: the six raw usage quantities in bytes plus
age, affiliation ordinal and state ordinal, as queried by update(). -/
structure ShenandoahHeapRegion where
  used : Nat
  get_live_data_bytes : Nat
  get_tlab_allocs : Nat
  get_gclab_allocs : Nat
  get_plab_allocs : Nat
  get_shared_allocs : Nat
  age : Nat
  affiliation : Nat
  state_ordinal : Nat
deriving DecidableEq

/-- Read-only collector state view: the queries encode_heap_status,
encode_phase and update() make against the heap. -/
structure ShenandoahHeap where
  is_idle : Bool
  is_evacuation_in_progress : Bool
  is_update_refs_in_progress : Bool
  is_concurrent_mark_in_progress : Bool
  is_generational : Bool
  active_generation : GenerationMode
  is_concurrent_old_mark_in_progress : Bool
  is_degenerated_gc_in_progress : Bool
  is_full_gc_in_progress : Bool
  num_regions : Nat
  region_size_bytes : Nat
  get_region : Nat → ShenandoahHeapRegion

/-- Modelled from the spec: the per-region word layout table lives in the
header (not part of the sources here); the spec fixes six ratio fields of
7 bits each at disjoint offsets. Mask for one ratio field. -/
def PERCENT_MASK : Nat := 0x7f

/-- Modelled from the spec: shift of the used-percentage field. -/
def USED_SHIFT : Nat := 0

/-- Modelled from the spec: shift of the live-percentage field. -/
def LIVE_SHIFT : Nat := 7

/-- Modelled from the spec: shift of the tlab-percentage field. -/
def TLAB_SHIFT : Nat := 14

/-- Modelled from the spec: shift of the gclab-percentage field. -/
def GCLAB_SHIFT : Nat := 21

/-- Modelled from the spec: shift of the plab-percentage field. -/
def PLAB_SHIFT : Nat := 28

/-- Modelled from the spec: shift of the shared-percentage field. -/
def SHARED_SHIFT : Nat := 35

/-- Modelled from the spec: mask of the age field (fixed small width). -/
def AGE_MASK : Nat := 0xf

/-- Modelled from the spec: shift of the age field. -/
def AGE_SHIFT : Nat := 42

/-- Modelled from the spec: mask of the 2-bit affiliation enum field. -/
def AFFILIATION_MASK : Nat := 0x3

/-- Modelled from the spec: shift of the affiliation field. -/
def AFFILIATION_SHIFT : Nat := 46

/-- Modelled from the spec: mask of the region-state ordinal field. -/
def STATUS_MASK : Nat := 0x3f

/-- Modelled from the spec: shift of the region-state ordinal field. -/
def STATUS_SHIFT : Nat := 48

/-- static int encode_phase(ShenandoahHeap* heap): evacuation is checked
first, then update-refs, then concurrent mark; otherwise 0 (the code
asserts heap->is_idle() there). -/
def encode_phase (heap : ShenandoahHeap) : Nat :=
  if heap.is_evacuation_in_progress then 2
  else if heap.is_update_refs_in_progress then 3
  else if heap.is_concurrent_mark_in_progress then 1
  else 0

/-- static int get_generation_shift(ShenandoahGeneration*): the 2-bit
phase lane offset chosen by the active generation mode. -/
def get_generation_shift : GenerationMode → Nat
  | GenerationMode.GLOBAL => 0
  | GenerationMode.OLD => 2
  | GenerationMode.YOUNG => 4

/-- The status value built by encode_heap_status before the degenerated
and full-GC flag bits are ORed in (lines 164-178 of the source). -/
def encode_status_base (heap : ShenandoahHeap) : Nat :=
  if !heap.is_generational then
    encode_phase heap
  else
    ((encode_phase heap &&& 0x3) <<< get_generation_shift heap.active_generation) |||
      (if heap.is_concurrent_old_mark_in_progress then 1 <<< 2 else 0)

/-- jlong ShenandoahHeapRegionCounters::encode_heap_status(ShenandoahHeap*). -/
def encode_heap_status (heap : ShenandoahHeap) : Nat :=
  if heap.is_idle then 0
  else
    let status := encode_status_base heap
    let status := if heap.is_degenerated_gc_in_progress then status ||| (1 <<< 6) else status
    let status := if heap.is_full_gc_in_progress then status ||| (1 <<< 7) else status
    status

/-- The per-region data word built in the loop of update() (lines
110-120 of the source): six capacity ratios, then age, affiliation and
state ordinal, each masked and shifted into place. rs is
ShenandoahHeapRegion::region_size_bytes(). -/
def encode_region_data (r : ShenandoahHeapRegion) (rs : Nat) : Nat :=
  (((100 * r.used / rs) &&& PERCENT_MASK) <<< USED_SHIFT) |||
  (((100 * r.get_live_data_bytes / rs) &&& PERCENT_MASK) <<< LIVE_SHIFT) |||
  (((100 * r.get_tlab_allocs / rs) &&& PERCENT_MASK) <<< TLAB_SHIFT) |||
  (((100 * r.get_gclab_allocs / rs) &&& PERCENT_MASK) <<< GCLAB_SHIFT) |||
  (((100 * r.get_plab_allocs / rs) &&& PERCENT_MASK) <<< PLAB_SHIFT) |||
  (((100 * r.get_shared_allocs / rs) &&& PERCENT_MASK) <<< SHARED_SHIFT) |||
  ((r.age &&& AGE_MASK) <<< AGE_SHIFT) |||
  ((r.affiliation &&& AFFILIATION_MASK) <<< AFFILIATION_SHIFT) |||
  ((r.state_ordinal &&& STATUS_MASK) <<< STATUS_SHIFT)

/-- The decoded fields of one per-region word. -/
structure DecodedRegion where
  used_percent : Nat
  live_percent : Nat
  tlab_percent : Nat
  gclab_percent : Nat
  plab_percent : Nat
  shared_percent : Nat
  age : Nat
  affiliation : Nat
  state_ordinal : Nat
deriving DecidableEq

/-- Modelled from the spec: the decoder (inverse of the region encoding,
required by the spec for testability; no decoder ships in these sources).
Each field is extracted by its published shift and mask. -/
def decode_region_data (w : Nat) : DecodedRegion where
  used_percent := (w >>> USED_SHIFT) &&& PERCENT_MASK
  live_percent := (w >>> LIVE_SHIFT) &&& PERCENT_MASK
  tlab_percent := (w >>> TLAB_SHIFT) &&& PERCENT_MASK
  gclab_percent := (w >>> GCLAB_SHIFT) &&& PERCENT_MASK
  plab_percent := (w >>> PLAB_SHIFT) &&& PERCENT_MASK
  shared_percent := (w >>> SHARED_SHIFT) &&& PERCENT_MASK
  age := (w >>> AGE_SHIFT) &&& AGE_MASK
  affiliation := (w >>> AFFILIATION_SHIFT) &&& AFFILIATION_MASK
  state_ordinal := (w >>> STATUS_SHIFT) &&& STATUS_MASK

/-- Outcome of one trigger of update(): either the gate was passed and a
full sampling pass ran, or the call skipped. -/
inductive SampleOutcome where
  | Skipped : SampleOutcome
  | Sampled : SampleOutcome
deriving DecidableEq

/-- One observable effect of update() on the counter sink or log sink,
in program order. -/
inductive Event where
  | SetStatus : Nat → Event
  | SetTimestamp : Int → Event
  | SetRegionData : Nat → Nat → Event
  | LogWriteSnapshot : List Nat → Int → Nat → Nat → Nat → Event
deriving DecidableEq

/-- The configuration flags read by update(), fixed at construction. -/
structure SamplerConfig where
  ShenandoahRegionSampling : Bool
  ShenandoahLogRegionSampling : Bool
  ShenandoahRegionSamplingRate : Int

/-- The mutable sampler state: the last-sample timestamp gate. -/
structure SamplerState where
  last_sample_millis : Int
deriving DecidableEq

/-- The per-region words of one sampling pass, in region-index order. -/
def region_words (heap : ShenandoahHeap) : List Nat :=
  (List.range heap.num_regions).map
    (fun i => encode_region_data (heap.get_region i) heap.region_size_bytes)

/-- void ShenandoahHeapRegionCounters::update(), sequential semantics:
given the configuration, the heap view, the current millisecond clock
value and the elapsed-counter value, it returns the new gate state, the
ordered list of sink effects, and the outcome. In this sequential model
the compare-and-swap against the freshly read gate value always succeeds;
the concurrent gate semantics is gate_step and gate_run below. -/
def update (cfg : SamplerConfig) (heap : ShenandoahHeap) (current elapsed : Int)
    (st : SamplerState) : SamplerState × List Event × SampleOutcome :=
  if cfg.ShenandoahRegionSampling then
    let last := st.last_sample_millis
    if current - last > cfg.ShenandoahRegionSamplingRate then
      let status := encode_heap_status heap
      let n := heap.num_regions
      let rs := heap.region_size_bytes
      let ev := Event.SetStatus status :: Event.SetTimestamp elapsed ::
        ((List.range n).map
            (fun i => Event.SetRegionData i (encode_region_data (heap.get_region i) rs)) ++
          (if cfg.ShenandoahLogRegionSampling then
            [Event.LogWriteSnapshot (region_words heap) elapsed status n rs]
          else []))
      (⟨current⟩, ev, SampleOutcome.Sampled)
    else (st, [], SampleOutcome.Skipped)
  else (st, [], SampleOutcome.Skipped)

/-- The gate logic of update() for one caller under concurrency: o is
the value of _last_sample_millis that this caller read, g the gate value
at the instant its compare-and-swap executes, now its clock value.
Returns the new gate value and whether the CAS won (a pass runs). -/
def gate_step (rate g o now : Int) : Int × Bool :=
  if now - o > rate then
    (if g = o then (now, true) else (g, false))
  else (g, false)

/-- Runs a list of concurrent callers, each a pair (observed, now), in
the order their compare-and-swap operations execute; returns the final
gate value and how many callers won (ran a full pass). -/
def gate_run (rate g : Int) : List (Int × Int) → Int × Nat
  | [] => (g, 0)
  | c :: rest =>
    let s := gate_step rate g c.1 c.2
    let r := gate_run rate s.1 rest
    (r.1, (if s.2 then 1 else 0) + r.2)

/-- Read consistency of an interleaving: each caller must have observed
some value the gate actually held before its CAS executed. past collects
the values the gate has held so far. -/
def valid_obs (rate g : Int) (past : List Int) : List (Int × Int) → Bool
  | [] => true
  | c :: rest =>
    past.contains c.1 &&
      valid_obs rate (gate_step rate g c.1 c.2).1
        (if (gate_step rate g c.1 c.2).2 then (gate_step rate g c.1 c.2).1 :: past else past)
        rest

/-- The state the constructor captures once at startup: the number of
regions and the region byte size (lines 44-73 of the source). -/
structure CountersLayout where
  num_regions : Nat
  region_size_bytes : Nat
deriving DecidableEq

/-- ShenandoahHeapRegionCounters::ShenandoahHeapRegionCounters():
captures heap->num_regions() and the region size once. -/
def counters_construct (heap : ShenandoahHeap) : CountersLayout :=
  ⟨heap.num_regions, heap.region_size_bytes⟩

/-- The region indices written by a list of effects, in order. -/
def region_write_indices (evs : List Event) : List Nat :=
  evs.filterMap (fun e => match e with
    | Event.SetRegionData i _ => some i
    | _ => none)

/-- Whether an effect list starts with a timestamp write followed by a
status write (the order the spec prescribes for the sampling pass). -/
def timestamp_before_status : List Event → Bool
  | Event.SetTimestamp _ :: Event.SetStatus _ :: _ => true
  | _ => false

/-- A region view with every query returning zero. -/
def region_zero : ShenandoahHeapRegion := ⟨0, 0, 0, 0, 0, 0, 0, 0, 0⟩

/-- Base concrete heap view: non-idle, non-generational, every flag off. -/
def heap_base : ShenandoahHeap where
  is_idle := false
  is_evacuation_in_progress := false
  is_update_refs_in_progress := false
  is_concurrent_mark_in_progress := false
  is_generational := false
  active_generation := GenerationMode.GLOBAL
  is_concurrent_old_mark_in_progress := false
  is_degenerated_gc_in_progress := false
  is_full_gc_in_progress := false
  num_regions := 0
  region_size_bytes := 0
  get_region := fun _ => region_zero

/-- Concrete heap view reporting idle with every flag raised. -/
def heap_idle_flags : ShenandoahHeap :=
  { heap_base with
    is_idle := true
    is_evacuation_in_progress := true
    is_update_refs_in_progress := true
    is_concurrent_mark_in_progress := true
    is_generational := true
    is_concurrent_old_mark_in_progress := true
    is_degenerated_gc_in_progress := true
    is_full_gc_in_progress := true }

/-- Concrete generational heap view: OLD generation active, concurrent
marking in progress, old concurrent mark active. -/
def heap_old_marking : ShenandoahHeap :=
  { heap_base with
    is_generational := true
    active_generation := GenerationMode.OLD
    is_concurrent_mark_in_progress := true
    is_concurrent_old_mark_in_progress := true }

/-- Concrete heap view with degenerated and full GC flags raised. -/
def heap_degen_full : ShenandoahHeap :=
  { heap_base with
    is_concurrent_mark_in_progress := true
    is_degenerated_gc_in_progress := true
    is_full_gc_in_progress := true }

/-- Concrete heap view with all three phase queries true. -/
def heap_evac : ShenandoahHeap :=
  { heap_base with
    is_evacuation_in_progress := true
    is_update_refs_in_progress := true
    is_concurrent_mark_in_progress := true }

/-- Concrete heap view with update-refs and marking true. -/
def heap_ur : ShenandoahHeap :=
  { heap_base with
    is_update_refs_in_progress := true
    is_concurrent_mark_in_progress := true }

/-- Concrete heap view with only marking true. -/
def heap_mark : ShenandoahHeap :=
  { heap_base with is_concurrent_mark_in_progress := true }

lemma encode_phase_le_three (heap : ShenandoahHeap) : encode_phase heap ≤ 3 := by
  unfold encode_phase
  repeat' split
  all_goals omega

lemma encode_status_base_lt (heap : ShenandoahHeap) : encode_status_base heap < 64 := by
  unfold encode_status_base
  split
  · exact lt_of_le_of_lt (encode_phase_le_three heap) (by norm_num)
  · have hp : encode_phase heap &&& 0x3 ≤ 3 := Nat.and_le_right
    have h1 : (encode_phase heap &&& 0x3) <<< get_generation_shift heap.active_generation < 2 ^ 6 := by
      rw [Nat.shiftLeft_eq]
      cases heap.active_generation <;> simp only [get_generation_shift] <;> norm_num <;> omega
    have h2 : (if heap.is_concurrent_old_mark_in_progress then 1 <<< 2 else 0) < 2 ^ 6 := by
      split <;> decide
    have h3 := Nat.or_lt_two_pow h1 h2
    norm_num at h3
    exact h3

lemma or_two_pow_eq_add (b : Nat) (i : Nat) (hb : b < 2 ^ i) : b ||| 2 ^ i = b + 2 ^ i := by
  have h := Nat.mul_add_lt_is_or (i := i) hb 1
  rw [Nat.mul_one] at h
  rw [Nat.lor_comm, ← h, Nat.add_comm]

lemma or_64_eq_add (b : Nat) (hb : b < 64) : b ||| 64 = b + 64 := by
  have h := or_two_pow_eq_add b 6 (by norm_num; omega)
  norm_num at h
  exact h

lemma or_128_eq_add (b : Nat) (hb : b < 128) : b ||| 128 = b + 128 := by
  have h := or_two_pow_eq_add b 7 (by norm_num; omega)
  norm_num at h
  exact h

lemma encode_heap_status_decomp (heap : ShenandoahHeap) (h : heap.is_idle = false) :
    encode_heap_status heap =
      encode_status_base heap +
        (if heap.is_degenerated_gc_in_progress then 64 else 0) +
        (if heap.is_full_gc_in_progress then 128 else 0) := by
  have hb := encode_status_base_lt heap
  cases hd : heap.is_degenerated_gc_in_progress <;>
    cases hf : heap.is_full_gc_in_progress <;>
    simp [encode_heap_status, h, hd, hf]
  · rw [or_128_eq_add _ (by omega)]
  · rw [or_64_eq_add _ hb]
  · rw [or_64_eq_add _ hb, or_128_eq_add _ (by omega)]

/-- Claim C1: whenever the heap reports itself idle, encode_heap_status
returns the all-zero word, regardless of the values of the old-mark,
degenerated and full-GC flags in the state view. -/
theorem idle_heap_status_is_zero (heap : ShenandoahHeap) (h : heap.is_idle = true) :
    encode_heap_status heap = 0 := by
  simp [encode_heap_status, h]

/-- Concrete check of C1 on an idle view with every flag raised. -/
theorem idle_heap_status_is_zero_witness :
    heap_idle_flags.is_idle = true ∧ encode_heap_status heap_idle_flags = 0 :=
  ⟨rfl, idle_heap_status_is_zero heap_idle_flags rfl⟩

/-- Claim C10: encode_phase resolves simultaneous phases by a fixed
precedence, evacuation (2) over update-references (3) over concurrent
marking (1); when none of the three is in progress it returns 0 (the
source asserts the heap is idle at that point). -/
theorem encode_phase_precedence (heap : ShenandoahHeap) :
    (heap.is_evacuation_in_progress = true → encode_phase heap = 2) ∧
    (heap.is_evacuation_in_progress = false → heap.is_update_refs_in_progress = true →
      encode_phase heap = 3) ∧
    (heap.is_evacuation_in_progress = false → heap.is_update_refs_in_progress = false →
      heap.is_concurrent_mark_in_progress = true → encode_phase heap = 1) ∧
    (heap.is_evacuation_in_progress = false → heap.is_update_refs_in_progress = false →
      heap.is_concurrent_mark_in_progress = false → encode_phase heap = 0) := by
  refine ⟨?_, ?_, ?_, ?_⟩ <;> intros <;> simp_all [encode_phase]

/-- Concrete check of C10 on the four precedence cases. -/
theorem encode_phase_precedence_witness :
    encode_phase heap_evac = 2 ∧ encode_phase heap_ur = 3 ∧
      encode_phase heap_mark = 1 ∧ encode_phase heap_base = 0 :=
  ⟨(encode_phase_precedence heap_evac).1 rfl,
   (encode_phase_precedence heap_ur).2.1 rfl rfl,
   (encode_phase_precedence heap_mark).2.2.1 rfl rfl rfl,
   (encode_phase_precedence heap_base).2.2.2 rfl rfl rfl⟩

/-- Claim C2: in a generational, non-idle state the 2-bit phase ordinal
is shifted into the lane selected by the active generation (GLOBAL at 0,
OLD at 2, YOUNG at 4) and an old-concurrent-mark flag bit (bit 2) is
ORed in when old concurrent marking is active; in particular for
generation OLD, phase MARKING and old-mark true, the OLD lane holds
MARKING and the old-mark flag bit is set. -/
theorem generational_status_encoding :
    (get_generation_shift GenerationMode.GLOBAL = 0 ∧
      get_generation_shift GenerationMode.OLD = 2 ∧
      get_generation_shift GenerationMode.YOUNG = 4) ∧
    (∀ heap : ShenandoahHeap, heap.is_generational = true → heap.is_idle = false →
      heap.is_degenerated_gc_in_progress = false → heap.is_full_gc_in_progress = false →
      encode_heap_status heap =
        ((encode_phase heap &&& 0x3) <<< get_generation_shift heap.active_generation) |||
          (if heap.is_concurrent_old_mark_in_progress then 1 <<< 2 else 0)) ∧
    ((encode_heap_status heap_old_marking >>> 2) &&& 0x3 = 1 ∧
      encode_heap_status heap_old_marking &&& (1 <<< 2) = 1 <<< 2) := by
  refine ⟨⟨rfl, rfl, rfl⟩, ?_, by decide⟩
  intro heap h1 h2 h3 h4
  simp [encode_heap_status, encode_status_base, h1, h2, h3, h4]

/-- Concrete check of C2 on the OLD-generation marking view. -/
theorem generational_status_encoding_witness :
    encode_heap_status heap_old_marking =
      ((encode_phase heap_old_marking &&& 0x3) <<<
          get_generation_shift heap_old_marking.active_generation) |||
        (if heap_old_marking.is_concurrent_old_mark_in_progress then 1 <<< 2 else 0) :=
  generational_status_encoding.2.1 heap_old_marking rfl rfl rfl rfl

/-- Claim C8: for every non-idle state the degenerated and full-GC flags
occupy the fixed high bits 6 and 7: the status decomposes as the base
encoding (phase lanes and old-mark bit, all strictly below bit 6) plus
the two flag bits, so the flags are disjoint from each other and from
every other field, and bits 6 and 7 are set exactly when the respective
flag is on. -/
theorem degen_full_flag_bits (heap : ShenandoahHeap) (h : heap.is_idle = false) :
    encode_heap_status heap =
      encode_status_base heap +
        (if heap.is_degenerated_gc_in_progress then 2 ^ 6 else 0) +
        (if heap.is_full_gc_in_progress then 2 ^ 7 else 0) ∧
    encode_status_base heap < 2 ^ 6 ∧
    (encode_heap_status heap >>> 6) % 2 = (if heap.is_degenerated_gc_in_progress then 1 else 0) ∧
    (encode_heap_status heap >>> 7) % 2 = (if heap.is_full_gc_in_progress then 1 else 0) ∧
    encode_heap_status heap >>> 8 = 0 := by
  have hb := encode_status_base_lt heap
  have hd := encode_heap_status_decomp heap h
  have h6 : encode_heap_status heap >>> 6 = encode_heap_status heap / 2 ^ 6 :=
    Nat.shiftRight_eq_div_pow _ _
  have h7 : encode_heap_status heap >>> 7 = encode_heap_status heap / 2 ^ 7 :=
    Nat.shiftRight_eq_div_pow _ _
  have h8 : encode_heap_status heap >>> 8 = encode_heap_status heap / 2 ^ 8 :=
    Nat.shiftRight_eq_div_pow _ _
  refine ⟨by rw [hd]; norm_num, by norm_num; omega, ?_, ?_, ?_⟩
  · rw [h6, hd]
    cases hdg : heap.is_degenerated_gc_in_progress <;>
      cases hfg : heap.is_full_gc_in_progress <;> simp_all <;> omega
  · rw [h7, hd]
    cases hdg : heap.is_degenerated_gc_in_progress <;>
      cases hfg : heap.is_full_gc_in_progress <;> simp_all <;> omega
  · rw [h8, hd]
    cases hdg : heap.is_degenerated_gc_in_progress <;>
      cases hfg : heap.is_full_gc_in_progress <;> simp_all <;> omega

/-- Concrete check of C8 on a marking view with both flags raised. -/
theorem degen_full_flag_bits_witness :
    heap_degen_full.is_idle = false ∧
      (encode_heap_status heap_degen_full >>> 6) % 2 = 1 ∧
      (encode_heap_status heap_degen_full >>> 7) % 2 = 1 :=
  ⟨rfl,
   by
    have h := degen_full_flag_bits heap_degen_full rfl
    refine ⟨?_, ?_⟩
    · rw [h.2.2.1]; rfl
    · rw [h.2.2.2.1]; rfl⟩

/-- Sampling-enabled configuration with logging on, rate 10 ms. -/
def cfg_on : SamplerConfig := ⟨true, true, 10⟩

/-- Sampling-enabled configuration with logging off, rate 10 ms. -/
def cfg_on_nolog : SamplerConfig := ⟨true, false, 10⟩

/-- Concrete two-region heap: region 0 half used, quarter live. -/
def heap_two_regions : ShenandoahHeap :=
  { heap_base with
    num_regions := 2
    region_size_bytes := 100
    get_region := fun i => if i = 0 then ⟨50, 25, 0, 0, 0, 0, 1, 1, 2⟩ else region_zero }

lemma update_run_eq (cfg : SamplerConfig) (heap : ShenandoahHeap) (current elapsed : Int)
    (st : SamplerState) (h1 : cfg.ShenandoahRegionSampling = true)
    (h2 : current - st.last_sample_millis > cfg.ShenandoahRegionSamplingRate) :
    update cfg heap current elapsed st =
      (⟨current⟩,
        Event.SetStatus (encode_heap_status heap) :: Event.SetTimestamp elapsed ::
          ((List.range heap.num_regions).map
              (fun i => Event.SetRegionData i
                (encode_region_data (heap.get_region i) heap.region_size_bytes)) ++
            (if cfg.ShenandoahLogRegionSampling then
              [Event.LogWriteSnapshot (region_words heap) elapsed (encode_heap_status heap)
                heap.num_regions heap.region_size_bytes]
            else [])),
        SampleOutcome.Sampled) := by
  simp [update, h1, h2]

lemma region_write_indices_status (v : Nat) (l : List Event) :
    region_write_indices (Event.SetStatus v :: l) = region_write_indices l := by
  simp [region_write_indices]

lemma region_write_indices_timestamp (v : Int) (l : List Event) :
    region_write_indices (Event.SetTimestamp v :: l) = region_write_indices l := by
  simp [region_write_indices]

lemma region_write_indices_append (a b : List Event) :
    region_write_indices (a ++ b) = region_write_indices a ++ region_write_indices b := by
  simp [region_write_indices]

lemma region_write_indices_map (g : Nat → Nat) (l : List Nat) :
    region_write_indices (l.map (fun i => Event.SetRegionData i (g i))) = l := by
  induction l with
  | nil => rfl
  | cons a t ih => simpa [region_write_indices] using ih

/-- Claim C3: with sampling enabled, a call of update() whose clock value
satisfies now - last <= rate returns Skipped having mutated nothing: the
gate timestamp is unchanged and no counter-sink or log-sink effect is
emitted. -/
theorem update_skips_within_interval (cfg : SamplerConfig) (heap : ShenandoahHeap)
    (current elapsed : Int) (st : SamplerState)
    (h1 : cfg.ShenandoahRegionSampling = true)
    (h2 : current - st.last_sample_millis ≤ cfg.ShenandoahRegionSamplingRate) :
    update cfg heap current elapsed st = (st, [], SampleOutcome.Skipped) := by
  simp [update, h1, not_lt.mpr h2]

/-- Concrete check of C3: a call 5 ms after the last sample with rate 10
skips and leaves everything untouched. -/
theorem update_skips_within_interval_witness :
    update cfg_on heap_two_regions 5 0 ⟨0⟩ = (⟨0⟩, [], SampleOutcome.Skipped) :=
  update_skips_within_interval cfg_on heap_two_regions 5 0 ⟨0⟩ rfl (by decide)

/-- Counterexample to claim C5 as stated: on a winning pass the first
sink effect is the status write, not the timestamp write, so the claimed
order (timestamp first, then status) fails on this concrete run. -/
theorem update_timestamp_first_counterexample :
    (update cfg_on heap_two_regions 100 7 ⟨0⟩).2.2 = SampleOutcome.Sampled ∧
      timestamp_before_status (update cfg_on heap_two_regions 100 7 ⟨0⟩).2.1 = false ∧
      (update cfg_on heap_two_regions 100 7 ⟨0⟩).2.1.head? =
        some (Event.SetStatus (encode_heap_status heap_two_regions)) := by
  refine ⟨rfl, rfl, rfl⟩

/-- Claim C5 (amended): on every winning pass the effects occur in this
order: first the encoded status word is published, then the timestamp,
then the per-region words in index order, then - only if log output is
enabled - the words, timestamp and status are handed to the log sink
exactly once, and the gate is left at the winning clock value. -/
theorem update_pass_effect_order (cfg : SamplerConfig) (heap : ShenandoahHeap)
    (current elapsed : Int) (st : SamplerState)
    (h1 : cfg.ShenandoahRegionSampling = true)
    (h2 : current - st.last_sample_millis > cfg.ShenandoahRegionSamplingRate) :
    update cfg heap current elapsed st =
      (⟨current⟩,
        Event.SetStatus (encode_heap_status heap) :: Event.SetTimestamp elapsed ::
          ((List.range heap.num_regions).map
              (fun i => Event.SetRegionData i
                (encode_region_data (heap.get_region i) heap.region_size_bytes)) ++
            (if cfg.ShenandoahLogRegionSampling then
              [Event.LogWriteSnapshot (region_words heap) elapsed (encode_heap_status heap)
                heap.num_regions heap.region_size_bytes]
            else [])),
        SampleOutcome.Sampled) :=
  update_run_eq cfg heap current elapsed st h1 h2

/-- Concrete check of the amended C5 on a two-region heap with logging. -/
theorem update_pass_effect_order_witness :
    update cfg_on heap_two_regions 100 7 ⟨0⟩ =
      (⟨100⟩,
        Event.SetStatus (encode_heap_status heap_two_regions) :: Event.SetTimestamp 7 ::
          ((List.range heap_two_regions.num_regions).map
              (fun i => Event.SetRegionData i
                (encode_region_data (heap_two_regions.get_region i)
                  heap_two_regions.region_size_bytes)) ++
            (if cfg_on.ShenandoahLogRegionSampling then
              [Event.LogWriteSnapshot (region_words heap_two_regions) 7
                (encode_heap_status heap_two_regions) heap_two_regions.num_regions
                heap_two_regions.region_size_bytes]
            else [])),
        SampleOutcome.Sampled) :=
  update_pass_effect_order cfg_on heap_two_regions 100 7 ⟨0⟩ rfl (by decide)

/-- Claim C9: a winning pass writes one per-region word at each index
0..N-1 and nothing else, where N is the region count captured at
construction; the written index sequence has exactly that length. The
heap region count is fixed for the sampler lifetime, so the count
update() reads equals the constructor-captured one. -/
theorem region_writes_match_construction (cfg : SamplerConfig) (heap : ShenandoahHeap)
    (current elapsed : Int) (st : SamplerState)
    (h1 : cfg.ShenandoahRegionSampling = true)
    (h2 : current - st.last_sample_millis > cfg.ShenandoahRegionSamplingRate) :
    region_write_indices (update cfg heap current elapsed st).2.1 =
      List.range (counters_construct heap).num_regions ∧
    (region_write_indices (update cfg heap current elapsed st).2.1).length =
      (counters_construct heap).num_regions := by
  have e : region_write_indices (update cfg heap current elapsed st).2.1 =
      List.range (counters_construct heap).num_regions := by
    rw [update_run_eq cfg heap current elapsed st h1 h2]
    rw [region_write_indices_status, region_write_indices_timestamp,
      region_write_indices_append, region_write_indices_map]
    have hlog : region_write_indices
        (if cfg.ShenandoahLogRegionSampling then
          [Event.LogWriteSnapshot (region_words heap) elapsed (encode_heap_status heap)
            heap.num_regions heap.region_size_bytes]
        else []) = [] := by
      split <;> rfl
    rw [hlog, List.append_nil]
    rfl
  exact ⟨e, by rw [e]; simp⟩

/-- Concrete check of C9 on the two-region heap. -/
theorem region_writes_match_construction_witness :
    region_write_indices (update cfg_on_nolog heap_two_regions 100 7 ⟨0⟩).2.1 = [0, 1] ∧
      (region_write_indices (update cfg_on_nolog heap_two_regions 100 7 ⟨0⟩).2.1).length = 2 :=
  region_writes_match_construction cfg_on_nolog heap_two_regions 100 7 ⟨0⟩ rfl (by decide)

lemma gate_no_more_wins (calls : List (Int × Int)) :
    ∀ (rate L w : Int) (past : List Int),
      0 ≤ rate → rate < w - L →
      (∀ c ∈ calls, rate < c.2 - L ∧ c.2 - w ≤ rate) →
      (∀ p ∈ past, p = L ∨ p = w) →
      valid_obs rate w past calls = true →
      (gate_run rate w calls).2 = 0 := by
  induction calls with
  | nil => intro rate L w past h0 hw hc hp hv; rfl
  | cons c rest ih =>
    intro rate L w past h0 hw hc hp hv
    obtain ⟨o, n⟩ := c
    simp only [valid_obs, Bool.and_eq_true] at hv
    obtain ⟨hobs, hv2⟩ := hv
    have hoin : o ∈ past := by simpa using hobs
    have hstep : gate_step rate w o n = (w, false) := by
      rcases hp o hoin with h | h
      · have hc1 : rate < n - L := by simpa using (hc (o, n) (by simp)).1
        have hwo : w ≠ o := by omega
        unfold gate_step
        rw [if_pos (show n - o > rate by omega), if_neg hwo]
      · have hc2 : n - w ≤ rate := by simpa using (hc (o, n) (by simp)).2
        unfold gate_step
        rw [if_neg (show ¬n - o > rate by omega)]
    rw [hstep] at hv2
    simp only [gate_run, hstep]
    simp only [if_neg (by simp : ¬false = true), Nat.zero_add]
    exact ih rate L w past h0 hw (fun d hd => hc d (by simp [hd])) hp (by simpa using hv2)

/-- Claim C4: a caller whose compare-and-swap is executed against a gate
value differing from what it observed returns without winning and leaves
the gate unchanged (Skipped, no retry, no work); and in any consistent
interleaving of concurrent calls within one sampling interval (each call
beyond the initial last-sample time, all call clocks within one rate of
one another, each observed value one the gate actually held), exactly one
caller wins the gate and runs a full pass. -/
theorem gate_cas_exactly_one_pass :
    (∀ rate g o n : Int, n - o > rate → g ≠ o → gate_step rate g o n = (g, false)) ∧
    (∀ (rate L : Int) (calls : List (Int × Int)), 0 ≤ rate → calls ≠ [] →
      (∀ c ∈ calls, rate < c.2 - L) →
      (∀ c ∈ calls, ∀ d ∈ calls, c.2 - d.2 ≤ rate) →
      valid_obs rate L [L] calls = true →
      (gate_run rate L calls).2 = 1) := by
  constructor
  · intro rate g o n h1 h2
    unfold gate_step
    rw [if_pos h1, if_neg h2]
  · intro rate L calls h0 hne hbeyond hpair hv
    cases calls with
    | nil => exact absurd rfl hne
    | cons c rest =>
      obtain ⟨o, n⟩ := c
      simp only [valid_obs, Bool.and_eq_true] at hv
      obtain ⟨hobs, hv2⟩ := hv
      have ho : o = L := by simpa using hobs
      have hbn : rate < n - L := by simpa using hbeyond (o, n) (by simp)
      have hstep : gate_step rate L o n = (n, true) := by
        unfold gate_step
        rw [if_pos (by omega : n - o > rate), if_pos ho.symm]
      rw [hstep] at hv2
      have hrest : (gate_run rate n rest).2 = 0 := by
        refine gate_no_more_wins rest rate L n (n :: [L]) h0 hbn ?_ ?_ (by simpa using hv2)
        · intro d hd
          exact ⟨hbeyond d (by simp [hd]),
            hpair d (by simp [hd]) (o, n) (by simp)⟩
        · intro p hp
          rcases (by simpa using hp : p = n ∨ p = L) with h | h
          · exact Or.inr h
          · exact Or.inl h
      simp only [gate_run, hstep]
      simp [hrest]

/-- Concrete check of C4: a losing CAS leaves the gate alone, and a
three-caller interleaving with one stale reader and one late reader has
exactly one winner. -/
theorem gate_cas_exactly_one_pass_witness :
    gate_step 10 50 0 100 = (50, false) ∧
      (gate_run 10 0 [(0, 100), (0, 100), (100, 105)]).2 = 1 :=
  ⟨gate_cas_exactly_one_pass.1 10 50 0 100 (by decide) (by decide),
   gate_cas_exactly_one_pass.2 10 0 [(0, 100), (0, 100), (100, 105)] (by decide)
     (by decide) (by decide) (by decide) (by decide)⟩

lemma or_mul_two_pow_eq_add (a b i : Nat) (ha : a < 2 ^ i) :
    a ||| b * 2 ^ i = a + b * 2 ^ i := by
  have h := Nat.mul_add_lt_is_or (i := i) ha b
  rw [Nat.lor_comm, Nat.mul_comm b (2 ^ i), ← h, Nat.add_comm]

lemma and_127_eq_mod (x : Nat) : x &&& 127 = x % 128 := by
  have h := Nat.and_pow_two_sub_one_eq_mod x 7
  norm_num at h
  exact h

lemma and_15_eq_mod (x : Nat) : x &&& 15 = x % 16 := by
  have h := Nat.and_pow_two_sub_one_eq_mod x 4
  norm_num at h
  exact h

lemma and_3_eq_mod (x : Nat) : x &&& 3 = x % 4 := by
  have h := Nat.and_pow_two_sub_one_eq_mod x 2
  norm_num at h
  exact h

lemma and_63_eq_mod (x : Nat) : x &&& 63 = x % 64 := by
  have h := Nat.and_pow_two_sub_one_eq_mod x 6
  norm_num at h
  exact h

lemma pack9 (v0 v1 v2 v3 v4 v5 v6 v7 v8 : Nat)
    (h0 : v0 < 2 ^ 7) (h1 : v1 < 2 ^ 7) (h2 : v2 < 2 ^ 7) (h3 : v3 < 2 ^ 7)
    (h4 : v4 < 2 ^ 7) (h5 : v5 < 2 ^ 7) (h6 : v6 < 2 ^ 4) (h7 : v7 < 2 ^ 2) :
    v0 ||| v1 * 2 ^ 7 ||| v2 * 2 ^ 14 ||| v3 * 2 ^ 21 ||| v4 * 2 ^ 28 ||| v5 * 2 ^ 35 |||
        v6 * 2 ^ 42 ||| v7 * 2 ^ 46 ||| v8 * 2 ^ 48 =
      v0 + v1 * 2 ^ 7 + v2 * 2 ^ 14 + v3 * 2 ^ 21 + v4 * 2 ^ 28 + v5 * 2 ^ 35 +
        v6 * 2 ^ 42 + v7 * 2 ^ 46 + v8 * 2 ^ 48 := by
  rw [or_mul_two_pow_eq_add v0 v1 7 (by omega)]
  rw [or_mul_two_pow_eq_add (v0 + v1 * 2 ^ 7) v2 14 (by omega)]
  rw [or_mul_two_pow_eq_add (v0 + v1 * 2 ^ 7 + v2 * 2 ^ 14) v3 21 (by omega)]
  rw [or_mul_two_pow_eq_add (v0 + v1 * 2 ^ 7 + v2 * 2 ^ 14 + v3 * 2 ^ 21) v4 28 (by omega)]
  rw [or_mul_two_pow_eq_add (v0 + v1 * 2 ^ 7 + v2 * 2 ^ 14 + v3 * 2 ^ 21 + v4 * 2 ^ 28)
    v5 35 (by omega)]
  rw [or_mul_two_pow_eq_add
    (v0 + v1 * 2 ^ 7 + v2 * 2 ^ 14 + v3 * 2 ^ 21 + v4 * 2 ^ 28 + v5 * 2 ^ 35)
    v6 42 (by omega)]
  rw [or_mul_two_pow_eq_add
    (v0 + v1 * 2 ^ 7 + v2 * 2 ^ 14 + v3 * 2 ^ 21 + v4 * 2 ^ 28 + v5 * 2 ^ 35 + v6 * 2 ^ 42)
    v7 46 (by omega)]
  rw [or_mul_two_pow_eq_add
    (v0 + v1 * 2 ^ 7 + v2 * 2 ^ 14 + v3 * 2 ^ 21 + v4 * 2 ^ 28 + v5 * 2 ^ 35 + v6 * 2 ^ 42 +
      v7 * 2 ^ 46)
    v8 48 (by omega)]

lemma encode_region_data_eq_sum (r : ShenandoahHeapRegion) (rs : Nat) :
    encode_region_data r rs =
      100 * r.used / rs % 128 +
      100 * r.get_live_data_bytes / rs % 128 * 2 ^ 7 +
      100 * r.get_tlab_allocs / rs % 128 * 2 ^ 14 +
      100 * r.get_gclab_allocs / rs % 128 * 2 ^ 21 +
      100 * r.get_plab_allocs / rs % 128 * 2 ^ 28 +
      100 * r.get_shared_allocs / rs % 128 * 2 ^ 35 +
      r.age % 16 * 2 ^ 42 +
      r.affiliation % 4 * 2 ^ 46 +
      r.state_ordinal % 64 * 2 ^ 48 := by
  simp only [encode_region_data, PERCENT_MASK, USED_SHIFT, LIVE_SHIFT, TLAB_SHIFT,
    GCLAB_SHIFT, PLAB_SHIFT, SHARED_SHIFT, AGE_MASK, AGE_SHIFT, AFFILIATION_MASK,
    AFFILIATION_SHIFT, STATUS_MASK, STATUS_SHIFT]
  simp only [and_127_eq_mod, and_15_eq_mod, and_3_eq_mod, and_63_eq_mod]
  simp only [Nat.shiftLeft_eq, pow_zero, Nat.mul_one]
  exact pack9 _ _ _ _ _ _ _ _ _ (by omega) (by omega) (by omega) (by omega) (by omega)
    (by omega) (by omega) (by omega)

/-- Claim C6: each of the six utilization values written into the
per-region word equals 100 * raw / region-size under integer division,
truncated to the 7-bit field width by the percent mask before shifting:
extracting any ratio lane of the encoded word returns exactly the masked
ratio, for arbitrary raw inputs (values beyond the capacity are handled
by the truncation, never rejected). -/
theorem region_ratio_fields (r : ShenandoahHeapRegion) (rs : Nat) :
    (encode_region_data r rs >>> USED_SHIFT) &&& PERCENT_MASK =
        (100 * r.used / rs) &&& PERCENT_MASK ∧
      (encode_region_data r rs >>> LIVE_SHIFT) &&& PERCENT_MASK =
        (100 * r.get_live_data_bytes / rs) &&& PERCENT_MASK ∧
      (encode_region_data r rs >>> TLAB_SHIFT) &&& PERCENT_MASK =
        (100 * r.get_tlab_allocs / rs) &&& PERCENT_MASK ∧
      (encode_region_data r rs >>> GCLAB_SHIFT) &&& PERCENT_MASK =
        (100 * r.get_gclab_allocs / rs) &&& PERCENT_MASK ∧
      (encode_region_data r rs >>> PLAB_SHIFT) &&& PERCENT_MASK =
        (100 * r.get_plab_allocs / rs) &&& PERCENT_MASK ∧
      (encode_region_data r rs >>> SHARED_SHIFT) &&& PERCENT_MASK =
        (100 * r.get_shared_allocs / rs) &&& PERCENT_MASK := by
  have hs := encode_region_data_eq_sum r rs
  simp only [PERCENT_MASK, USED_SHIFT, LIVE_SHIFT, TLAB_SHIFT, GCLAB_SHIFT, PLAB_SHIFT,
    SHARED_SHIFT]
  rw [hs]
  simp only [Nat.shiftRight_eq_div_pow, and_127_eq_mod, pow_zero, Nat.div_one]
  omega

lemma unpack9 (v0 v1 v2 v3 v4 v5 v6 v7 v8 : Nat) :
    (v0 % 128 + v1 % 128 * 2 ^ 7 + v2 % 128 * 2 ^ 14 + v3 % 128 * 2 ^ 21 +
        v4 % 128 * 2 ^ 28 + v5 % 128 * 2 ^ 35 + v6 % 16 * 2 ^ 42 + v7 % 4 * 2 ^ 46 +
        v8 % 64 * 2 ^ 48) % 128 = v0 % 128 ∧
      (v0 % 128 + v1 % 128 * 2 ^ 7 + v2 % 128 * 2 ^ 14 + v3 % 128 * 2 ^ 21 +
        v4 % 128 * 2 ^ 28 + v5 % 128 * 2 ^ 35 + v6 % 16 * 2 ^ 42 + v7 % 4 * 2 ^ 46 +
        v8 % 64 * 2 ^ 48) / 2 ^ 7 % 128 = v1 % 128 ∧
      (v0 % 128 + v1 % 128 * 2 ^ 7 + v2 % 128 * 2 ^ 14 + v3 % 128 * 2 ^ 21 +
        v4 % 128 * 2 ^ 28 + v5 % 128 * 2 ^ 35 + v6 % 16 * 2 ^ 42 + v7 % 4 * 2 ^ 46 +
        v8 % 64 * 2 ^ 48) / 2 ^ 14 % 128 = v2 % 128 ∧
      (v0 % 128 + v1 % 128 * 2 ^ 7 + v2 % 128 * 2 ^ 14 + v3 % 128 * 2 ^ 21 +
        v4 % 128 * 2 ^ 28 + v5 % 128 * 2 ^ 35 + v6 % 16 * 2 ^ 42 + v7 % 4 * 2 ^ 46 +
        v8 % 64 * 2 ^ 48) / 2 ^ 21 % 128 = v3 % 128 ∧
      (v0 % 128 + v1 % 128 * 2 ^ 7 + v2 % 128 * 2 ^ 14 + v3 % 128 * 2 ^ 21 +
        v4 % 128 * 2 ^ 28 + v5 % 128 * 2 ^ 35 + v6 % 16 * 2 ^ 42 + v7 % 4 * 2 ^ 46 +
        v8 % 64 * 2 ^ 48) / 2 ^ 28 % 128 = v4 % 128 ∧
      (v0 % 128 + v1 % 128 * 2 ^ 7 + v2 % 128 * 2 ^ 14 + v3 % 128 * 2 ^ 21 +
        v4 % 128 * 2 ^ 28 + v5 % 128 * 2 ^ 35 + v6 % 16 * 2 ^ 42 + v7 % 4 * 2 ^ 46 +
        v8 % 64 * 2 ^ 48) / 2 ^ 35 % 128 = v5 % 128 ∧
      (v0 % 128 + v1 % 128 * 2 ^ 7 + v2 % 128 * 2 ^ 14 + v3 % 128 * 2 ^ 21 +
        v4 % 128 * 2 ^ 28 + v5 % 128 * 2 ^ 35 + v6 % 16 * 2 ^ 42 + v7 % 4 * 2 ^ 46 +
        v8 % 64 * 2 ^ 48) / 2 ^ 42 % 16 = v6 % 16 ∧
      (v0 % 128 + v1 % 128 * 2 ^ 7 + v2 % 128 * 2 ^ 14 + v3 % 128 * 2 ^ 21 +
        v4 % 128 * 2 ^ 28 + v5 % 128 * 2 ^ 35 + v6 % 16 * 2 ^ 42 + v7 % 4 * 2 ^ 46 +
        v8 % 64 * 2 ^ 48) / 2 ^ 46 % 4 = v7 % 4 ∧
      (v0 % 128 + v1 % 128 * 2 ^ 7 + v2 % 128 * 2 ^ 14 + v3 % 128 * 2 ^ 21 +
        v4 % 128 * 2 ^ 28 + v5 % 128 * 2 ^ 35 + v6 % 16 * 2 ^ 42 + v7 % 4 * 2 ^ 46 +
        v8 % 64 * 2 ^ 48) / 2 ^ 48 % 64 = v8 % 64 := by
  refine ⟨?_, ?_, ?_, ?_, ?_, ?_, ?_, ?_, ?_⟩ <;> omega

/-- Claim C7: decoding the encoded per-region word reproduces age,
affiliation and state exactly whenever they fit their fields, and
reproduces each of the six ratios exactly whenever the ratio fits the
7-bit field; wider values round-trip only modulo the field width. -/
theorem region_roundtrip (r : ShenandoahHeapRegion) (rs : Nat)
    (hu : 100 * r.used / rs ≤ 127)
    (hl : 100 * r.get_live_data_bytes / rs ≤ 127)
    (ht : 100 * r.get_tlab_allocs / rs ≤ 127)
    (hg : 100 * r.get_gclab_allocs / rs ≤ 127)
    (hp : 100 * r.get_plab_allocs / rs ≤ 127)
    (hsh : 100 * r.get_shared_allocs / rs ≤ 127)
    (ha : r.age ≤ 15) (haf : r.affiliation ≤ 3) (hst : r.state_ordinal ≤ 63) :
    decode_region_data (encode_region_data r rs) =
      ⟨100 * r.used / rs, 100 * r.get_live_data_bytes / rs, 100 * r.get_tlab_allocs / rs,
        100 * r.get_gclab_allocs / rs, 100 * r.get_plab_allocs / rs,
        100 * r.get_shared_allocs / rs, r.age, r.affiliation, r.state_ordinal⟩ := by
  have hs := encode_region_data_eq_sum r rs
  obtain ⟨e0, e1, e2, e3, e4, e5, e6, e7, e8⟩ :=
    unpack9 (100 * r.used / rs) (100 * r.get_live_data_bytes / rs)
      (100 * r.get_tlab_allocs / rs) (100 * r.get_gclab_allocs / rs)
      (100 * r.get_plab_allocs / rs) (100 * r.get_shared_allocs / rs)
      r.age r.affiliation r.state_ordinal
  simp only [decode_region_data, DecodedRegion.mk.injEq, PERCENT_MASK, USED_SHIFT,
    LIVE_SHIFT, TLAB_SHIFT, GCLAB_SHIFT, PLAB_SHIFT, SHARED_SHIFT, AGE_MASK, AGE_SHIFT,
    AFFILIATION_MASK, AFFILIATION_SHIFT, STATUS_MASK, STATUS_SHIFT]
  rw [hs]
  simp only [Nat.shiftRight_eq_div_pow, and_127_eq_mod, and_15_eq_mod, and_3_eq_mod,
    and_63_eq_mod, pow_zero, Nat.div_one]
  rw [e0, e1, e2, e3, e4, e5, e6, e7, e8]
  refine ⟨?_, ?_, ?_, ?_, ?_, ?_, ?_, ?_, ?_⟩ <;> exact Nat.mod_eq_of_lt (by omega)

/-- Concrete check of C7: a region of capacity 100 with used 50, live 25,
age 3, affiliation 2, state 5 round-trips exactly. -/
theorem region_roundtrip_witness :
    decode_region_data (encode_region_data ⟨50, 25, 0, 0, 0, 0, 3, 2, 5⟩ 100) =
      ⟨50, 25, 0, 0, 0, 0, 3, 2, 5⟩ :=
  region_roundtrip ⟨50, 25, 0, 0, 0, 0, 3, 2, 5⟩ 100 (by decide) (by decide) (by decide)
    (by decide) (by decide) (by decide) (by decide) (by decide) (by decide)
